import Mathlib

/-!
Verification of the eqWAlizer stub pipeline and query layer
(`crates/eqwalizer/src/db.rs`), the change applier
(`crates/base_db/src/change.rs`) and the raw AST acquisition query
(`crates/ide_db/src/erl_ast.rs`) of the erlang-language-platform.

Strings are modelled as lists of characters; Rust `BTreeMap`s are modelled
as association lists in iteration order (keys unique, which `BTreeMap`
guarantees); external collaborators that are not part of the analysed
sources (the stub expander, the contractivity and transitivity checkers,
the parser service, the file system) are fields of an explicit database
record. Functions that can panic in Rust (`unwrap`, out-of-bounds
indexing) return a result type with an explicit `panicked` value.
-/

namespace Elp

/-- Characters of a Rust `str`/`String`. -/
abbrev Str := List Char

abbrev ProjectId := Nat
abbrev ModuleName := Str
abbrev FileId := Nat
abbrev Bytes := List Nat
abbrev ConvErr := Nat

/-- `Id`: a (name, arity) pair, the primary lookup key. -/
structure Id where
  name : Str
  arity : Nat
deriving DecidableEq

/-- Opaque payload of a type declaration. -/
structure TypeDecl where
  val : Nat
deriving DecidableEq

/-- Opaque payload of a (plain) function spec. -/
structure FunSpec where
  val : Nat
deriving DecidableEq

/-- Opaque payload of an overloaded function spec. -/
structure OverloadedFunSpec where
  val : Nat
deriving DecidableEq

/-- Opaque payload of a record declaration. -/
structure RecDecl where
  val : Nat
deriving DecidableEq

/-- Opaque payload of a callback declaration. -/
structure Callback where
  val : Nat
deriving DecidableEq

/-- Opaque normalized AST value. -/
structure AST where
  val : Nat
deriving DecidableEq

/-- `ast::Error`: the pipeline error taxonomy (`ModuleNotFound`,
`BEAMNotFound`, `TypeConversionError`). -/
inductive Error where
  | ModuleNotFound : Str → Error
  | BEAMNotFound : Str → Error
  | TypeConversionError : ConvErr → Error
deriving DecidableEq

/-- Result of a query that may also panic (Rust `unwrap` or out-of-bounds
indexing aborts instead of returning a `Result`). -/
inductive QRes (α : Type) where
  | ok : α → QRes α
  | err : Error → QRes α
  | panicked : QRes α
deriving DecidableEq

def QRes.bind {α β : Type} : QRes α → (α → QRes β) → QRes β
  | .ok a, f => f a
  | .err e, _ => .err e
  | .panicked, _ => .panicked

/-- Lift an infallible-control-flow Rust `Result` into `QRes`. -/
def liftE {α : Type} : Except Error α → QRes α
  | .ok a => .ok a
  | .error e => .err e

/-- Association-list map lookup (first binding wins; `BTreeMap` keys are
unique so this agrees with `BTreeMap::get`). -/
def lookupA {κ α : Type} [DecidableEq κ] : List (κ × α) → κ → Option α
  | [], _ => none
  | (k, a) :: rest, k' => if k' = k then some a else lookupA rest k'

/-- Association-list map insert: replace the binding in place if the key
is present, appending otherwise (lookup-equivalent to `BTreeMap::insert`). -/
def insertA {κ α : Type} [DecidableEq κ] : List (κ × α) → κ → α → List (κ × α)
  | [], k, a => [(k, a)]
  | (k₀, a₀) :: rest, k, a =>
      if k = k₀ then (k₀, a) :: rest else (k₀, a₀) :: insertA rest k a

/-- `str::split_once(c)`: the part before the first occurrence of `c` and
everything after it, or `none` when `c` does not occur. -/
def splitOnceL (c : Char) : Str → Option (Str × Str)
  | [] => none
  | x :: xs =>
      if x = c then some ([], xs)
      else (splitOnceL c xs).map (fun p => (x :: p.1, p.2))

/-- `str::split(c).collect::<Vec<_>>()`: all separator-delimited segments
(always nonempty; a string without the separator yields one segment). -/
def splitAllL (c : Char) : Str → List Str
  | [] => [[]]
  | x :: xs =>
      if x = c then [] :: splitAllL c xs
      else
        match splitAllL c xs with
        | [] => [[x]]
        | h :: t => (x :: h) :: t

/-- `AbsPath::join`: path concatenation with a separator. -/
def pathJoin (a b : Str) : Str := a ++ '/' :: b

/-- `ModuleStub`: the declarative surface of a module. -/
structure ModuleStub where
  types : List (Id × TypeDecl)
  specs : List (Id × FunSpec)
  overloaded_specs : List (Id × OverloadedFunSpec)
  records : List (Str × RecDecl)
  callbacks : List Callback
  optional_callbacks : List Id
deriving DecidableEq

/-- `VStub`: a `ModuleStub` decorated with per-type contractivity
verdicts. -/
structure VStub where
  stub : ModuleStub
  non_contractive : List Id
deriving DecidableEq

/-- `AppType`: the owning application kind (`Otp` marks
platform/library applications). -/
inductive AppType where
  | Otp : AppType
  | App : AppType
deriving DecidableEq

/-- The application data attached to a file (`file_app_data`). -/
structure AppData where
  app_type : AppType
  ebin_path : Option Str
deriving DecidableEq

/-- The database the eqWAlizer queries run against.  Fields are the
external facts and collaborators the queries in `eqwalizer/src/db.rs`
consume: the module index, per-file application data, the file system,
the decoders, and the expansion/contractivity/transitivity passes
defined in other crates. -/
structure EqDb where
  file_for_module : ProjectId → ModuleName → Option FileId
  file_app_data : FileId → Option AppData
  fs_read : Str → Option Bytes
  from_beam : Bytes → Except Error AST
  erl_ast_bytes : ProjectId → ModuleName → Except Error Bytes
  from_bytes : Bytes → Bool → Except Error AST
  expand : ProjectId → ModuleName → AST → Except ConvErr ModuleStub
  check_contractivity : ProjectId → ModuleName → ModuleStub → VStub
  check_transitive : ProjectId → ModuleName → VStub → ModuleStub
  stub_to_bytes : ModuleStub → Bytes

/-- `from_beam_path`: the BEAM artifact path for a file, provided the
owning application is of OTP kind and has a known ebin directory. -/
def from_beam_path (db : EqDb) (file_id : FileId) (module : ModuleName) : Option Str :=
  match db.file_app_data file_id with
  | none => none
  | some app_data =>
      if app_data.app_type ≠ AppType.Otp then none
      else
        match app_data.ebin_path with
        | none => none
        | some ebin => some (pathJoin ebin (module ++ ".beam".toList))

/-- `converted_stub`: stage 1 of the pipeline, obtaining a normalized AST
either from a BEAM artifact or from the parser service bytes. -/
def converted_stub (db : EqDb) (project_id : ProjectId) (module : ModuleName) : QRes AST :=
  match db.file_for_module project_id module with
  | some file_id =>
      match from_beam_path db file_id module with
      | some beam_path =>
          match db.fs_read beam_path with
          | some beam_contents => liftE (db.from_beam beam_contents)
          | none => .err (.BEAMNotFound beam_path)
      | none =>
          QRes.bind (liftE (db.erl_ast_bytes project_id module)) fun ast =>
            liftE (db.from_bytes ast true)
  | none => .err (.ModuleNotFound module)

/-- `expanded_stub`: stage 2, expansion of the converted AST into a
`ModuleStub`; expansion failures are wrapped as `TypeConversionError`. -/
def expanded_stub (db : EqDb) (project_id : ProjectId) (module : ModuleName) : QRes ModuleStub :=
  QRes.bind (converted_stub db project_id module) fun ast =>
    match db.expand project_id module ast with
    | .ok stub => .ok stub
    | .error e => .err (.TypeConversionError e)

/-- `contractive_stub`: stage 3, the contractivity check. -/
def contractive_stub (db : EqDb) (project_id : ProjectId) (module : ModuleName) : QRes VStub :=
  QRes.bind (expanded_stub db project_id module) fun stub =>
    .ok (db.check_contractivity project_id module stub)

/-- `transitive_stub`: stage 4, the transitive closure check. -/
def transitive_stub (db : EqDb) (project_id : ProjectId) (module : ModuleName) : QRes ModuleStub :=
  QRes.bind (contractive_stub db project_id module) fun v_stub =>
    .ok (db.check_transitive project_id module v_stub)

/-- `transitive_stub_bytes`: the serialized form of the transitive stub. -/
def transitive_stub_bytes (db : EqDb) (project_id : ProjectId) (module : ModuleName) : QRes Bytes :=
  QRes.bind (transitive_stub db project_id module) fun stub =>
    .ok (db.stub_to_bytes stub)

/-- A per-real-module override map. -/
abbrev NMap (α : Type) := List (ModuleName × List (Id × α))

/-- Lookup in a per-real-module override map: module first, then Id. -/
def lookup2 {α : Type} (m : NMap α) (module : ModuleName) (id : Id) : Option α :=
  (lookupA m module).bind fun inner => lookupA inner id

/-- `result.entry(module).or_default().insert(id, v)` on a nested map. -/
def insertNested {α : Type} (m : NMap α) (module : ModuleName) (id : Id) (v : α) : NMap α :=
  match lookupA m module with
  | some inner => insertA m module (insertA inner id v)
  | none => m ++ [(module, [(id, v)])]

/-- Re-keying used by `custom_types` and `custom_fun_specs`:
`split_once` at the first colon, the remainder of the name kept whole;
`none` models the panicking `unwrap` on a colon-free name. -/
def rekeySplitOnce (id : Id) : Option (ModuleName × Id) :=
  (splitOnceL ':' id.name).map fun p => (p.1, ⟨p.2, id.arity⟩)

/-- Re-keying used by `custom_overloaded_fun_specs`: `split(":")` into
segments, taking segment 0 as the module and segment 1 as the name;
`none` models the panicking `parts[1]` when there is no second segment. -/
def rekeyParts (id : Id) : Option (ModuleName × Id) :=
  match splitAllL ':' id.name with
  | m :: n :: _ => some (m, ⟨n, id.arity⟩)
  | _ => none

/-- The post-processing loop of the three override queries: each stub
entry is re-keyed and inserted into the per-real-module map; a failing
re-keying is a panic. -/
def buildCustom {α : Type} (rekey : Id → Option (ModuleName × Id)) :
    List (Id × α) → NMap α → QRes (NMap α)
  | [], acc => .ok acc
  | (id, v) :: rest, acc =>
      match rekey id with
      | none => .panicked
      | some (module, id') => buildCustom rekey rest (insertNested acc module id' v)

/-- The reserved virtual module holding custom type declarations. -/
def eqwalizer_types : ModuleName := "eqwalizer_types".toList

/-- The reserved virtual module holding custom function specs. -/
def eqwalizer_specs : ModuleName := "eqwalizer_specs".toList

/-- `custom_types`: the per-real-module type override map, obtained from
the transitive stub of `eqwalizer_types`; its absence yields an empty
map. -/
def custom_types (db : EqDb) (project_id : ProjectId) : QRes (NMap TypeDecl) :=
  match transitive_stub db project_id eqwalizer_types with
  | .ok stub => buildCustom rekeySplitOnce stub.types []
  | .err (.ModuleNotFound _) => .ok []
  | .err e => .err e
  | .panicked => .panicked

/-- `custom_fun_specs`: the per-real-module plain-spec override map,
from the `specs` of the transitive stub of `eqwalizer_specs`. -/
def custom_fun_specs (db : EqDb) (project_id : ProjectId) : QRes (NMap FunSpec) :=
  match transitive_stub db project_id eqwalizer_specs with
  | .ok stub => buildCustom rekeySplitOnce stub.specs []
  | .err (.ModuleNotFound _) => .ok []
  | .err e => .err e
  | .panicked => .panicked

/-- `custom_overloaded_fun_specs`: the per-real-module overloaded-spec
override map, from the `overloaded_specs` of the transitive stub of
`eqwalizer_specs`. -/
def custom_overloaded_fun_specs (db : EqDb) (project_id : ProjectId) :
    QRes (NMap OverloadedFunSpec) :=
  match transitive_stub db project_id eqwalizer_specs with
  | .ok stub => buildCustom rekeyParts stub.overloaded_specs []
  | .err (.ModuleNotFound _) => .ok []
  | .err e => .err e
  | .panicked => .panicked

/-- `type_decl`: custom override first, else the module's own transitive
stub. -/
def type_decl (db : EqDb) (project_id : ProjectId) (module : ModuleName) (id : Id) :
    QRes (Option TypeDecl) :=
  QRes.bind (custom_types db project_id) fun cts =>
    match lookup2 cts module id with
    | some t => .ok (some t)
    | none =>
        QRes.bind (transitive_stub db project_id module) fun stub =>
          .ok (lookupA stub.types id)

/-- `rec_decl`: record declarations come only from the module's own
transitive stub. -/
def rec_decl (db : EqDb) (project_id : ProjectId) (module : ModuleName) (id : Str) :
    QRes (Option RecDecl) :=
  QRes.bind (transitive_stub db project_id module) fun stub =>
    .ok (lookupA stub.records id)

/-- `fun_spec`: an Id present among custom overloaded specs yields none;
else a custom plain spec; else the module's own transitive stub. -/
def fun_spec (db : EqDb) (project_id : ProjectId) (module : ModuleName) (id : Id) :
    QRes (Option FunSpec) :=
  QRes.bind (custom_overloaded_fun_specs db project_id) fun cofs =>
    if (lookup2 cofs module id).isSome then .ok none
    else
      QRes.bind (custom_fun_specs db project_id) fun cfs =>
        match lookup2 cfs module id with
        | some s => .ok (some s)
        | none =>
            QRes.bind (transitive_stub db project_id module) fun stub =>
              .ok (lookupA stub.specs id)

/-- `overloaded_fun_spec`: an Id present among custom plain specs yields
none; else a custom overloaded spec; else the module's own transitive
stub. -/
def overloaded_fun_spec (db : EqDb) (project_id : ProjectId) (module : ModuleName) (id : Id) :
    QRes (Option OverloadedFunSpec) :=
  QRes.bind (custom_fun_specs db project_id) fun cfs =>
    if (lookup2 cfs module id).isSome then .ok none
    else
      QRes.bind (custom_overloaded_fun_specs db project_id) fun cofs =>
        match lookup2 cofs module id with
        | some s => .ok (some s)
        | none =>
            QRes.bind (transitive_stub db project_id module) fun stub =>
              .ok (lookupA stub.overloaded_specs id)

/-- `callbacks`: the callbacks and optional-callback set of the module's
transitive stub. -/
def callbacks (db : EqDb) (project_id : ProjectId) (module : ModuleName) :
    QRes (List Callback × List Id) :=
  QRes.bind (transitive_stub db project_id module) fun stub =>
    .ok (stub.callbacks, stub.optional_callbacks)

/-- A source root: the ordered collection of FileIds of one compilation
unit (what `root.iter()` traverses in `Change::apply`). -/
structure SourceRoot where
  files : List FileId
deriving DecidableEq

abbrev SourceRootId := Nat

/-- The state of the base database that `Change::apply` mutates.  The
application-structure component is opaque to the change applier (its
installation is code of another module), so it is a plain value. -/
structure DbState where
  file_source_root : FileId → SourceRootId
  source_root : SourceRootId → SourceRoot
  file_text : FileId → Str
  app_state : Nat

def setFileSourceRoot (file_id : FileId) (root_id : SourceRootId) (st : DbState) : DbState :=
  { st with file_source_root := fun f => if f = file_id then root_id else st.file_source_root f }

def setSourceRoot (root_id : SourceRootId) (root : SourceRoot) (st : DbState) : DbState :=
  { st with source_root := fun r => if r = root_id then root else st.source_root r }

def setFileText (file_id : FileId) (text : Str) (st : DbState) : DbState :=
  { st with file_text := fun f => if f = file_id then text else st.file_text f }

/-- The roots-installation loop of `Change::apply`, with the running
enumeration index made explicit: for each root, point every file of the
root at the root's index and install the root itself under that index. -/
def applyRootsFrom (idx : SourceRootId) : List SourceRoot → DbState → DbState
  | [], st => st
  | root :: rest, st =>
      applyRootsFrom (idx + 1) rest
        (setSourceRoot idx root (root.files.foldl (fun st f => setFileSourceRoot f idx st) st))

/-- The roots-installation loop of `Change::apply` (`enumerate()` starts
at index 0). -/
def applyRoots (roots : List SourceRoot) (st : DbState) : DbState :=
  applyRootsFrom 0 roots st

/-- The text-application loop of `Change::apply`: an absent text is
applied as empty text, and each staged file id is pushed onto the
result list. -/
def applyTexts : List (FileId × Option Str) → DbState → DbState × List FileId
  | [], st => (st, [])
  | (file_id, text) :: rest, st =>
      let st' := setFileText file_id (text.getD []) st
      let (st'', res) := applyTexts rest st'
      (st'', file_id :: res)

/-- `Change`: a staged batch of pending mutations.  The application
structure is modelled as the state transformer its (out-of-scope)
`apply` method denotes, parametrized by the path resolver it may call. -/
structure Change where
  roots : Option (List SourceRoot)
  files_changed : List (FileId × Option Str)
  app_structure : Option ((Str → Option FileId) → DbState → DbState)

/-- `Change::change_file`: stage a text replacement. -/
def Change.change_file (c : Change) (file_id : FileId) (new_text : Option Str) : Change :=
  { c with files_changed := c.files_changed ++ [(file_id, new_text)] }

/-- `Change::apply`: commit the staged mutations — roots first, then the
application structure (with the supplied resolver), then the text
changes — returning the new state and the changed file ids. -/
def Change.apply (c : Change) (st : DbState) (resolve_file_id : Str → Option FileId) :
    DbState × List FileId :=
  let st :=
    match c.roots with
    | some roots => applyRoots roots st
    | none => st
  let st :=
    match c.app_structure with
    | some set_app_structure => set_app_structure resolve_file_id st
    | none => st
  applyTexts c.files_changed st

/-- `EqwalizerDiagnostics`: a structured payload or a textual error. -/
inductive EqwalizerDiagnostics where
  | Payload : Nat → EqwalizerDiagnostics
  | Error : Str → EqwalizerDiagnostics
deriving DecidableEq

/-- The database the diagnostics entry point runs against: the clock, the
config input, the display of pipeline errors, and the out-of-scope
`get_module_diagnostics` driver itself.
Modelled from the spec: `get_module_diagnostics` (defined outside the
analysed excerpt) drives the full pipeline and returns either a
structured success payload or a pipeline error. -/
structure DiagDb where
  now : Nat
  eqwalizer_config : Nat
  err_display : Error → Str
  get_module_diagnostics : ProjectId → Str → Except Error EqwalizerDiagnostics

/-- `module_diagnostics`: take a timestamp, drive the pipeline, and pair
the payload (with any error rendered as a textual diagnostic naming the
module) with the timestamp. -/
def module_diagnostics (db : DiagDb) (project_id : ProjectId) (module : Str) :
    EqwalizerDiagnostics × Nat :=
  let timestamp := db.now
  match db.get_module_diagnostics project_id module with
  | .ok diag => (diag, timestamp)
  | .error err =>
      (.Error ("eqWAlizing module ".toList ++ module ++ ":\n".toList ++ db.err_display err),
        timestamp)

/-- A structured parse error of the external parser service. -/
structure ParseError where
  path : Str
  location : Option Nat
  msg : Str
  code : Str
deriving DecidableEq

/-- The parser service's response: an AST or a structured error. -/
inductive ParseResult where
  | ast : Nat → ParseResult
  | error : ParseError → ParseResult
deriving DecidableEq

/-- Metadata attached to a file (opaque here). -/
abbrev Metadata := Nat

/-- The application data consulted by `module_ast`. -/
structure AppDataA where
  project_id : ProjectId
  macro_defs : List Nat
  parse_transforms : List Nat
deriving DecidableEq

/-- The database `module_ast` runs against: root and path lookups, the
metadata query, per-file application data, and the external parser
delegate `load_ast`. -/
structure AstDb where
  file_source_root : FileId → SourceRootId
  root_path_for_file : SourceRootId → FileId → Option Str
  elp_metadata : FileId → Metadata
  file_app_data : FileId → Option AppDataA
  load_ast : ProjectId → FileId → Str → List Nat → List Nat → Metadata → ParseResult

/-- `module_ast`: resolve the file's path (panicking if absent), then —
without application data — answer a location-less L0003 parse error, or
otherwise delegate to the parser with the application's macro
definitions, parse transforms and metadata. -/
def module_ast (db : AstDb) (file_id : FileId) : Option ParseResult :=
  match db.root_path_for_file (db.file_source_root file_id) file_id with
  | none => none
  | some path =>
      let metadata := db.elp_metadata file_id
      match db.file_app_data file_id with
      | none =>
          some (.error
            { path := path
              location := none
              msg := "Unknown application".toList
              code := "L0003".toList })
      | some app_data =>
          some (db.load_ast app_data.project_id file_id path app_data.macro_defs
            app_data.parse_transforms metadata)

/-! Concrete databases used to evaluate the queries on closed inputs. -/

/-- A stub with no declarations at all. -/
def emptyStub : ModuleStub :=
  { types := [], specs := [], overloaded_specs := [], records := [],
    callbacks := [], optional_callbacks := [] }

/-- A database in which exactly the modules of `tbl` exist, each one's
pipeline succeeding with the listed stub: every existing module is a
project module parsed through the service path, the expander yields the
table entry, and the two checkers are the identity on content. -/
def simpleDb (tbl : List (ModuleName × ModuleStub)) : EqDb where
  file_for_module := fun _ m => match lookupA tbl m with | some _ => some 0 | none => none
  file_app_data := fun _ => none
  fs_read := fun _ => none
  from_beam := fun _ => .error (.ModuleNotFound [])
  erl_ast_bytes := fun _ _ => .ok []
  from_bytes := fun _ _ => .ok ⟨0⟩
  expand := fun _ m _ => .ok ((lookupA tbl m).getD emptyStub)
  check_contractivity := fun _ _ stub => ⟨stub, []⟩
  check_transitive := fun _ _ v_stub => v_stub.stub
  stub_to_bytes := fun _ => []

/-- A database whose modules all exist but whose parser-service bytes
query fails, so every pipeline run stops with a non-`ModuleNotFound`
error. -/
def failedBytesDb : EqDb :=
  { simpleDb [(eqwalizer_types, emptyStub), (eqwalizer_specs, emptyStub)] with
    erl_ast_bytes := fun _ _ => .error (.TypeConversionError 7) }

/-- A database with a single OTP module whose BEAM artifact is absent. -/
def beamMissingDb : EqDb :=
  { simpleDb [(['m'], emptyStub)] with
    file_app_data := fun _ => some { app_type := .Otp, ebin_path := some "ebin".toList } }

/-- The stub of a module `a` declaring type t/0 and spec entries used by
the override-precedence witnesses. -/
def stubA : ModuleStub :=
  { emptyStub with
    types := [(⟨['t'], 0⟩, ⟨1⟩)],
    specs := [(⟨['f'], 1⟩, ⟨5⟩), (⟨['h'], 3⟩, ⟨6⟩)],
    overloaded_specs := [(⟨['g'], 2⟩, ⟨7⟩), (⟨['k'], 4⟩, ⟨8⟩)] }

/-- The stub of the virtual module eqwalizer_types declaring the
override a:t/0. -/
def stubTypesOverride : ModuleStub :=
  { emptyStub with types := [(⟨"a:t".toList, 0⟩, ⟨2⟩)] }

/-- The stub of the virtual module eqwalizer_specs declaring the plain
override a:f/1 and the overloaded override a:g/2. -/
def stubSpecsOverride : ModuleStub :=
  { emptyStub with
    specs := [(⟨"a:f".toList, 1⟩, ⟨3⟩)],
    overloaded_specs := [(⟨"a:g".toList, 2⟩, ⟨4⟩)] }

/-- The concrete database of the override-precedence witnesses: module a
plus both reserved virtual modules. -/
def overrideDb : EqDb :=
  simpleDb
    [(['a'], stubA), (eqwalizer_types, stubTypesOverride), (eqwalizer_specs, stubSpecsOverride)]

/-- A virtual type-override stub whose entry name has two colons. -/
def multiColonTypesStub : ModuleStub :=
  { emptyStub with types := [(⟨"a:b:c".toList, 1⟩, ⟨11⟩)] }

/-- A virtual spec-override stub whose overloaded entry name has two
colons. -/
def multiColonSpecsStub : ModuleStub :=
  { emptyStub with
    specs := [(⟨"m:f".toList, 2⟩, ⟨12⟩)],
    overloaded_specs := [(⟨"x:y:z".toList, 3⟩, ⟨13⟩)] }

/-- A database whose virtual-module entries have names with two colons,
separating the behavior of split_once from split-and-index. -/
def multiColonDb : EqDb :=
  simpleDb [(eqwalizer_types, multiColonTypesStub), (eqwalizer_specs, multiColonSpecsStub)]

/-- A virtual type-override stub with a colon-free entry name. -/
def noColonTypesStub : ModuleStub :=
  { emptyStub with types := [(⟨"nocolon".toList, 0⟩, ⟨21⟩)] }

/-- A virtual spec-override stub with colon-free entry names. -/
def noColonSpecsStub : ModuleStub :=
  { emptyStub with
    specs := [(⟨"alsono".toList, 1⟩, ⟨22⟩)],
    overloaded_specs := [(⟨"stillno".toList, 2⟩, ⟨23⟩)] }

/-- A database whose virtual-module entries have colon-free names, the
inputs on which the override queries panic. -/
def noColonDb : EqDb :=
  simpleDb [(eqwalizer_types, noColonTypesStub), (eqwalizer_specs, noColonSpecsStub)]

/-- An initial base-database state for the change-applier witness. -/
def st0 : DbState :=
  { file_source_root := fun _ => 99
    source_root := fun _ => ⟨[]⟩
    file_text := fun _ => "old".toList
    app_state := 0 }

/-- A staged change batch for the change-applier witness: two roots, one
blanked file, one rewritten file. -/
def change0 : Change :=
  ((({ roots := some [⟨[1, 2]⟩, ⟨[2, 3]⟩], files_changed := [], app_structure := none } :
      Change).change_file 1 none).change_file 2 (some "new".toList))

/-- A diagnostics database whose pipeline driver fails, for the
diagnostics witness. -/
def diagDb0 : DiagDb :=
  { now := 41
    eqwalizer_config := 0
    err_display := fun _ => "boom".toList
    get_module_diagnostics := fun _ _ => .error (.TypeConversionError 3) }

/-- An AST database with one file that has a path but no application
data, for the module_ast witness. -/
def astDb0 : AstDb :=
  { file_source_root := fun _ => 0
    root_path_for_file := fun _ _ => some "/src/a.erl".toList
    elp_metadata := fun _ => 17
    file_app_data := fun _ => none
    load_ast := fun _ _ _ _ _ _ => .ast 55 }

/-! Helper lemmas about the map, split and fold operations. -/

theorem lookupA_insertA_self {κ α : Type} [DecidableEq κ] (l : List (κ × α)) (k : κ) (a : α) :
    lookupA (insertA l k a) k = some a := by
  induction l with
  | nil => simp [insertA, lookupA]
  | cons hd t ih =>
    obtain ⟨k₀, a₀⟩ := hd
    by_cases hk : k = k₀
    · simp [insertA, hk, lookupA]
    · simp [insertA, hk, lookupA, ih]

theorem lookupA_insertA_other {κ α : Type} [DecidableEq κ] (l : List (κ × α)) (k k' : κ) (a : α)
    (h : k' ≠ k) : lookupA (insertA l k a) k' = lookupA l k' := by
  induction l with
  | nil => simp [insertA, lookupA, h]
  | cons hd t ih =>
    obtain ⟨k₀, a₀⟩ := hd
    by_cases hk : k = k₀
    · subst hk
      simp [insertA, lookupA, h]
    · by_cases hk' : k' = k₀ <;> simp [insertA, hk, lookupA, hk', ih]

theorem lookupA_append_some {κ α : Type} [DecidableEq κ] (l₁ l₂ : List (κ × α)) (k : κ) (a : α)
    (h : lookupA l₁ k = some a) : lookupA (l₁ ++ l₂) k = some a := by
  induction l₁ with
  | nil => simp [lookupA] at h
  | cons hd t ih =>
    obtain ⟨k₀, a₀⟩ := hd
    by_cases hk : k = k₀ <;> simp_all [lookupA]

theorem lookupA_append_none {κ α : Type} [DecidableEq κ] (l₁ l₂ : List (κ × α)) (k : κ)
    (h : lookupA l₁ k = none) : lookupA (l₁ ++ l₂) k = lookupA l₂ k := by
  induction l₁ with
  | nil => simp
  | cons hd t ih =>
    obtain ⟨k₀, a₀⟩ := hd
    by_cases hk : k = k₀ <;> simp_all [lookupA]

theorem lookup2_insertNested {α : Type} (acc : NMap α) (m : ModuleName) (i : Id) (v : α)
    (m' : ModuleName) (i' : Id) :
    lookup2 (insertNested acc m i v) m' i' =
      if m' = m ∧ i' = i then some v else lookup2 acc m' i' := by
  unfold insertNested
  cases hacc : lookupA acc m with
  | some inner =>
    by_cases hm : m' = m
    · subst hm
      unfold lookup2
      rw [lookupA_insertA_self]
      by_cases hi : i' = i
      · subst hi
        simp [Option.bind, lookupA_insertA_self]
      · simp [Option.bind, lookupA_insertA_other _ _ _ _ hi, hacc, hi]
    · unfold lookup2
      rw [lookupA_insertA_other _ _ _ _ hm]
      simp [hm]
  | none =>
    by_cases hm : m' = m
    · subst hm
      unfold lookup2
      rw [lookupA_append_none _ _ _ hacc]
      by_cases hi : i' = i
      · subst hi
        simp [lookupA, hacc]
      · simp [lookupA, hi, hacc]
    · unfold lookup2
      cases hl : lookupA acc m' with
      | some inner' => rw [lookupA_append_some _ _ _ _ hl]; simp [hm, hl]
      | none =>
        rw [lookupA_append_none _ _ _ hl]
        simp [lookupA, hm, hl]

theorem splitOnceL_eq_none_iff (c : Char) (s : Str) : splitOnceL c s = none ↔ c ∉ s := by
  induction s with
  | nil => simp [splitOnceL]
  | cons x xs ih =>
    by_cases hx : x = c
    · subst hx
      simp [splitOnceL]
    · simp [splitOnceL, hx, ih, Ne.symm hx]

theorem splitAllL_ne_nil (c : Char) (s : Str) : splitAllL c s ≠ [] := by
  cases s with
  | nil => simp [splitAllL]
  | cons x xs =>
    by_cases hx : x = c
    · simp [splitAllL, hx]
    · simp only [splitAllL, hx, if_false]
      cases splitAllL c xs <;> simp

theorem splitAllL_of_not_mem (c : Char) (s : Str) (h : c ∉ s) : splitAllL c s = [s] := by
  induction s with
  | nil => rfl
  | cons x xs ih =>
    have hx : ¬x = c := fun he => h (he ▸ List.mem_cons_self x xs)
    have hxs : c ∉ xs := fun hm => h (List.mem_cons_of_mem x hm)
    simp [splitAllL, hx, ih hxs]

theorem splitAllL_of_mem (c : Char) (s : Str) (h : c ∈ s) :
    ∃ a b t, splitAllL c s = a :: b :: t := by
  induction s with
  | nil => simp at h
  | cons x xs ih =>
    by_cases hx : x = c
    · subst hx
      cases he : splitAllL x xs with
      | nil => exact absurd he (splitAllL_ne_nil x xs)
      | cons b t => exact ⟨[], b, t, by simp [splitAllL, he]⟩
    · have hxs : c ∈ xs := by
        rcases List.mem_cons.mp h with he | hm
        · exact absurd he.symm hx
        · exact hm
      obtain ⟨a, b, t, he⟩ := ih hxs
      exact ⟨x :: a, b, t, by simp [splitAllL, hx, he]⟩

theorem rekeySplitOnce_eq_none_iff (i : Id) : rekeySplitOnce i = none ↔ ':' ∉ i.name := by
  unfold rekeySplitOnce
  rw [Option.map_eq_none']
  exact splitOnceL_eq_none_iff ':' i.name

theorem rekeyParts_eq_none_iff (i : Id) : rekeyParts i = none ↔ ':' ∉ i.name := by
  unfold rekeyParts
  constructor
  · intro h hmem
    obtain ⟨a, b, t, he⟩ := splitAllL_of_mem ':' i.name hmem
    rw [he] at h
    simp at h
  · intro h
    rw [splitAllL_of_not_mem ':' i.name h]

theorem buildCustom_panicked {α : Type} (rekey : Id → Option (ModuleName × Id))
    (l : List (Id × α)) (acc : NMap α) (h : ∃ e ∈ l, rekey e.1 = none) :
    buildCustom rekey l acc = .panicked := by
  induction l generalizing acc with
  | nil => simp at h
  | cons hd t ih =>
    obtain ⟨i, v⟩ := hd
    cases hr : rekey i with
    | none => simp [buildCustom, hr]
    | some p =>
      obtain ⟨m', i'⟩ := p
      simp only [buildCustom, hr]
      apply ih
      obtain ⟨e, he, hn⟩ := h
      rcases List.mem_cons.mp he with rfl | hm
      · rw [hn] at hr
        cases hr
      · exact ⟨e, hm, hn⟩

theorem buildCustom_isOk {α : Type} (rekey : Id → Option (ModuleName × Id))
    (l : List (Id × α)) (acc : NMap α) (h : ∀ e ∈ l, (rekey e.1).isSome) :
    ∃ r, buildCustom rekey l acc = .ok r := by
  induction l generalizing acc with
  | nil => exact ⟨acc, rfl⟩
  | cons hd t ih =>
    obtain ⟨i, v⟩ := hd
    cases hr : rekey i with
    | none =>
      have := h (i, v) (List.mem_cons_self _ _)
      rw [hr] at this
      simp at this
    | some p =>
      obtain ⟨m', i'⟩ := p
      simp only [buildCustom, hr]
      exact ih _ (fun e he => h e (List.mem_cons_of_mem _ he))

theorem buildCustom_lookup_preserve {α : Type} (rekey : Id → Option (ModuleName × Id))
    (m₀ : ModuleName) (j₀ : Id) (l : List (Id × α)) :
    ∀ (acc r : NMap α), (∀ e ∈ l, ∀ p, rekey e.1 = some p → p ≠ (m₀, j₀)) →
      buildCustom rekey l acc = .ok r → lookup2 r m₀ j₀ = lookup2 acc m₀ j₀ := by
  induction l with
  | nil =>
    intro acc r _ hb
    simp only [buildCustom] at hb
    cases hb
    rfl
  | cons hd t ih =>
    intro acc r h hb
    obtain ⟨i, v⟩ := hd
    cases hr : rekey i with
    | none => simp [buildCustom, hr] at hb
    | some p =>
      obtain ⟨m', i'⟩ := p
      simp only [buildCustom, hr] at hb
      have hne : (m', i') ≠ (m₀, j₀) := h (i, v) (List.mem_cons_self _ _) _ hr
      have hstep := ih (insertNested acc m' i' v) r
        (fun e he => h e (List.mem_cons_of_mem _ he)) hb
      rw [hstep, lookup2_insertNested]
      have hcond : ¬(m₀ = m' ∧ j₀ = i') := by
        intro ⟨h1, h2⟩
        exact hne (by rw [h1, h2])
      simp [hcond]

theorem buildCustom_lookup_mem {α : Type} (rekey : Id → Option (ModuleName × Id))
    (l : List (Id × α)) :
    ∀ (acc r : NMap α) (i₀ : Id) (v₀ : α) (m₀ : ModuleName) (j₀ : Id),
      (∀ e ∈ l, (rekey e.1).isSome) →
      (l.filterMap (fun e => rekey e.1)).Nodup →
      (i₀, v₀) ∈ l → rekey i₀ = some (m₀, j₀) →
      buildCustom rekey l acc = .ok r → lookup2 r m₀ j₀ = some v₀ := by
  induction l with
  | nil =>
    intro acc r i₀ v₀ m₀ j₀ _ _ hmem
    simp at hmem
  | cons hd t ih =>
    intro acc r i₀ v₀ m₀ j₀ hall hnd hmem hrk hb
    obtain ⟨i, v⟩ := hd
    cases hr : rekey i with
    | none =>
      have := hall (i, v) (List.mem_cons_self _ _)
      rw [hr] at this
      simp at this
    | some p =>
      obtain ⟨m', i'⟩ := p
      simp only [buildCustom, hr] at hb
      have hfm : t.filterMap (fun e => rekey e.1) = (((i, v) :: t).filterMap
          (fun e => rekey e.1)).tail := by
        simp [List.filterMap_cons, hr]
      have hfm_cons : ((i, v) :: t).filterMap (fun e => rekey e.1) =
          (m', i') :: t.filterMap (fun e => rekey e.1) := by
        simp [List.filterMap_cons, hr]
      rw [hfm_cons] at hnd
      have hnotin : (m', i') ∉ t.filterMap (fun e => rekey e.1) := (List.nodup_cons.mp hnd).1
      have hndt : (t.filterMap (fun e => rekey e.1)).Nodup := (List.nodup_cons.mp hnd).2
      rcases List.mem_cons.mp hmem with heq | hm
      · injection heq with h1 h2
        subst h1
        subst h2
        rw [hr] at hrk
        injection hrk with h3
        injection h3 with h4 h5
        subst h4
        subst h5
        have hpre := buildCustom_lookup_preserve rekey m' i' t
          (insertNested acc m' i' v₀) r
          (fun e he p hp hpe => by
            subst hpe
            exact hnotin (List.mem_filterMap.mpr ⟨e, he, hp⟩))
          hb
        rw [hpre, lookup2_insertNested]
        simp
      · exact ih _ r i₀ v₀ m₀ j₀ (fun e he => hall e (List.mem_cons_of_mem _ he)) hndt hm hrk hb

theorem applyTexts_snd (l : List (FileId × Option Str)) (st : DbState) :
    (applyTexts l st).2 = l.map Prod.fst := by
  induction l generalizing st with
  | nil => rfl
  | cons hd t ih =>
    obtain ⟨f, txt⟩ := hd
    simp [applyTexts, ih]

theorem setFileText_file_text (file_id : FileId) (text : Str) (st : DbState) (f : FileId) :
    (setFileText file_id text st).file_text f =
      if f = file_id then text else st.file_text f := rfl

theorem applyTexts_file_text (l : List (FileId × Option Str)) (st : DbState) (f : FileId) :
    (applyTexts l st).1.file_text f =
      match lookupA l.reverse f with
      | some t => t.getD []
      | none => st.file_text f := by
  induction l generalizing st with
  | nil => rfl
  | cons hd t ih =>
    obtain ⟨f₀, t₀⟩ := hd
    simp only [applyTexts, ih, List.reverse_cons]
    cases hrev : lookupA t.reverse f with
    | some u => rw [lookupA_append_some _ _ _ _ hrev]
    | none =>
      rw [lookupA_append_none _ _ _ hrev]
      by_cases hf : f = f₀ <;> simp [lookupA, hf, setFileText_file_text]

theorem setFileSourceRoot_source_root (f : FileId) (idx : SourceRootId) (st : DbState) :
    (setFileSourceRoot f idx st).source_root = st.source_root := rfl

theorem setSourceRoot_file_source_root (idx : SourceRootId) (root : SourceRoot) (st : DbState) :
    (setSourceRoot idx root st).file_source_root = st.file_source_root := rfl

theorem foldl_setFSR_source_root (files : List FileId) (idx : SourceRootId) (st : DbState) :
    (files.foldl (fun st f => setFileSourceRoot f idx st) st).source_root = st.source_root := by
  induction files generalizing st with
  | nil => rfl
  | cons x t ih =>
    rw [List.foldl_cons, ih]
    rfl

theorem foldl_setFSR_fsr_not_mem (files : List FileId) (idx : SourceRootId) (st : DbState)
    (f : FileId) (h : f ∉ files) :
    (files.foldl (fun st f => setFileSourceRoot f idx st) st).file_source_root f =
      st.file_source_root f := by
  induction files generalizing st with
  | nil => rfl
  | cons x t ih =>
    have hx : f ≠ x := fun he => h (he ▸ List.mem_cons_self x t)
    have ht : f ∉ t := fun hm => h (List.mem_cons_of_mem x hm)
    rw [List.foldl_cons, ih _ ht]
    simp [setFileSourceRoot, hx]

theorem foldl_setFSR_fsr_mem (files : List FileId) (idx : SourceRootId) (st : DbState)
    (f : FileId) (h : f ∈ files) :
    (files.foldl (fun st f => setFileSourceRoot f idx st) st).file_source_root f = idx := by
  induction files generalizing st with
  | nil => simp at h
  | cons x t ih =>
    by_cases ht : f ∈ t
    · rw [List.foldl_cons]
      exact ih _ ht
    · have hx : f = x := by
        rcases List.mem_cons.mp h with he | hm
        · exact he
        · exact absurd hm ht
      rw [List.foldl_cons, foldl_setFSR_fsr_not_mem _ _ _ _ ht]
      simp [setFileSourceRoot, hx]

theorem applyRootsFrom_source_root_lt (roots : List SourceRoot) (idx : SourceRootId)
    (st : DbState) (j : SourceRootId) (h : j < idx) :
    (applyRootsFrom idx roots st).source_root j = st.source_root j := by
  induction roots generalizing idx st with
  | nil => rfl
  | cons root rest ih =>
    show (applyRootsFrom (idx + 1) rest
      (setSourceRoot idx root
        (root.files.foldl (fun st f => setFileSourceRoot f idx st) st))).source_root j = _
    rw [ih (idx + 1)
      (setSourceRoot idx root (root.files.foldl (fun st f => setFileSourceRoot f idx st) st))
      (Nat.lt_succ_of_lt h)]
    have hne : j ≠ idx := Nat.ne_of_lt h
    show (if j = idx then root
      else (root.files.foldl (fun st f => setFileSourceRoot f idx st) st).source_root j) = _
    rw [if_neg hne, congrFun (foldl_setFSR_source_root root.files idx st) j]

theorem applyRootsFrom_source_root_get (roots : List SourceRoot) (idx : SourceRootId)
    (st : DbState) (k : Nat) (h : k < roots.length) :
    (applyRootsFrom idx roots st).source_root (idx + k) = roots.get ⟨k, h⟩ := by
  induction roots generalizing idx st k with
  | nil => simp at h
  | cons root rest ih =>
    cases k with
    | zero =>
      show (applyRootsFrom (idx + 1) rest
        (setSourceRoot idx root
          (root.files.foldl (fun st f => setFileSourceRoot f idx st) st))).source_root idx =
        (root :: rest).get ⟨0, h⟩
      rw [applyRootsFrom_source_root_lt rest (idx + 1)
          (setSourceRoot idx root (root.files.foldl (fun st f => setFileSourceRoot f idx st) st))
          idx (Nat.lt_succ_self idx)]
      show (if idx = idx then root else _) = _
      rw [if_pos rfl]
      rfl
    | succ k' =>
      have hk : k' < rest.length := Nat.lt_of_succ_lt_succ h
      have h2 := ih (idx + 1)
        (setSourceRoot idx root (root.files.foldl (fun st f => setFileSourceRoot f idx st) st))
        k' hk
      show (applyRootsFrom (idx + 1) rest
        (setSourceRoot idx root
          (root.files.foldl (fun st f => setFileSourceRoot f idx st) st))).source_root
            (idx + (k' + 1)) = (root :: rest).get ⟨k' + 1, h⟩
      have harith : idx + (k' + 1) = idx + 1 + k' := by ring
      rw [harith]
      exact h2

theorem applyRootsFrom_fsr_not_mem (roots : List SourceRoot) (idx : SourceRootId)
    (st : DbState) (f : FileId) (h : ∀ r ∈ roots, f ∉ r.files) :
    (applyRootsFrom idx roots st).file_source_root f = st.file_source_root f := by
  induction roots generalizing idx st with
  | nil => rfl
  | cons root rest ih =>
    show (applyRootsFrom (idx + 1) rest
      (setSourceRoot idx root
        (root.files.foldl (fun st f => setFileSourceRoot f idx st) st))).file_source_root f = _
    rw [ih (idx + 1)
      (setSourceRoot idx root (root.files.foldl (fun st f => setFileSourceRoot f idx st) st))
      (fun r hr => h r (List.mem_cons_of_mem root hr))]
    rw [congrFun (setSourceRoot_file_source_root idx root _) f]
    exact foldl_setFSR_fsr_not_mem root.files idx st f (h root (List.mem_cons_self root rest))

theorem applyRootsFrom_fsr_split (pre : List SourceRoot) (root : SourceRoot)
    (post : List SourceRoot) (idx : SourceRootId) (st : DbState) (f : FileId)
    (hmem : f ∈ root.files) (hpost : ∀ r ∈ post, f ∉ r.files) :
    (applyRootsFrom idx (pre ++ root :: post) st).file_source_root f = idx + pre.length := by
  induction pre generalizing idx st with
  | nil =>
    show (applyRootsFrom (idx + 1) post
      (setSourceRoot idx root
        (root.files.foldl (fun st f => setFileSourceRoot f idx st) st))).file_source_root f = _
    rw [applyRootsFrom_fsr_not_mem post (idx + 1)
      (setSourceRoot idx root (root.files.foldl (fun st f => setFileSourceRoot f idx st) st))
      f hpost]
    rw [congrFun (setSourceRoot_file_source_root idx root _) f]
    rw [foldl_setFSR_fsr_mem root.files idx st f hmem]
    simp
  | cons q pre' ih =>
    show (applyRootsFrom (idx + 1) (pre' ++ root :: post)
      (setSourceRoot idx q
        (q.files.foldl (fun st f => setFileSourceRoot f idx st) st))).file_source_root f =
      idx + (q :: pre').length
    rw [ih (idx + 1)
      (setSourceRoot idx q (q.files.foldl (fun st f => setFileSourceRoot f idx st) st))]
    rw [List.length_cons]
    ring

/-! The claims. -/

/-- Claim C5: a failure at any pipeline stage is terminal and propagates
verbatim to every later stage: an error of converted_stub is returned
unchanged by expanded_stub, contractive_stub, transitive_stub and
transitive_stub_bytes; an error of expanded_stub by contractive_stub and
transitive_stub; an error of contractive_stub by transitive_stub; and an
error of transitive_stub by transitive_stub_bytes. -/
theorem C5_pipeline_error_propagation (db : EqDb) (p : ProjectId) (m : ModuleName) (e : Error) :
    (converted_stub db p m = .err e →
      expanded_stub db p m = .err e ∧ contractive_stub db p m = .err e ∧
      transitive_stub db p m = .err e ∧ transitive_stub_bytes db p m = .err e) ∧
    (expanded_stub db p m = .err e →
      contractive_stub db p m = .err e ∧ transitive_stub db p m = .err e) ∧
    (contractive_stub db p m = .err e → transitive_stub db p m = .err e) ∧
    (transitive_stub db p m = .err e → transitive_stub_bytes db p m = .err e) := by
  have h2 : expanded_stub db p m = .err e → contractive_stub db p m = .err e := by
    intro he
    simp [contractive_stub, he, QRes.bind]
  have h3 : contractive_stub db p m = .err e → transitive_stub db p m = .err e := by
    intro hc
    simp [transitive_stub, hc, QRes.bind]
  have h4 : transitive_stub db p m = .err e → transitive_stub_bytes db p m = .err e := by
    intro ht
    simp [transitive_stub_bytes, ht, QRes.bind]
  refine ⟨?_, fun he => ⟨h2 he, h3 (h2 he)⟩, h3, h4⟩
  intro hc
  have he : expanded_stub db p m = .err e := by
    simp [expanded_stub, hc, QRes.bind]
  exact ⟨he, h2 he, h3 (h2 he), h4 (h3 (h2 he))⟩

/-- Claim C5 witness: in a database with no modules, the converted stub
of module a fails with ModuleNotFound and the error reaches the last
stage unchanged. -/
theorem C5_witness :
    converted_stub (simpleDb []) 0 ['a'] = .err (.ModuleNotFound ['a']) ∧
    transitive_stub_bytes (simpleDb []) 0 ['a'] = .err (.ModuleNotFound ['a']) :=
  ⟨by decide,
    ((C5_pipeline_error_propagation (simpleDb []) 0 ['a'] (.ModuleNotFound ['a'])).1
      (by decide)).2.2.2⟩

/-- Claim C6: converted_stub selects source and error as follows: a
module absent from the index gives ModuleNotFound; a BEAM path exists
exactly when the owning application is of OTP kind with a known ebin
path and is then ebin/Module.beam, an unreadable artifact giving
BEAMNotFound with that path; otherwise the AST comes from the parser
service bytes. -/
theorem C6_converted_stub_sources (db : EqDb) (p : ProjectId) (m : ModuleName) :
    (db.file_for_module p m = none → converted_stub db p m = .err (.ModuleNotFound m)) ∧
    (∀ fid, db.file_for_module p m = some fid →
      (∀ path, from_beam_path db fid m = some path →
        (∃ ad, db.file_app_data fid = some ad ∧ ad.app_type = AppType.Otp ∧
          ∃ ebin, ad.ebin_path = some ebin ∧ path = pathJoin ebin (m ++ ".beam".toList)) ∧
        (db.fs_read path = none → converted_stub db p m = .err (.BEAMNotFound path)) ∧
        (∀ bs, db.fs_read path = some bs → converted_stub db p m = liftE (db.from_beam bs))) ∧
      (from_beam_path db fid m = none →
        converted_stub db p m =
          QRes.bind (liftE (db.erl_ast_bytes p m)) fun ast => liftE (db.from_bytes ast true))) := by
  constructor
  · intro h
    simp [converted_stub, h]
  · intro fid hfid
    constructor
    · intro path hpath
      refine ⟨?_, ?_, ?_⟩
      · have hp := hpath
        unfold from_beam_path at hp
        cases had : db.file_app_data fid with
        | none =>
          rw [had] at hp
          simp at hp
        | some ad =>
          rw [had] at hp
          dsimp only at hp
          by_cases hot : ad.app_type = AppType.Otp
          · rw [if_neg (by simp [hot])] at hp
            cases heb : ad.ebin_path with
            | none =>
              rw [heb] at hp
              simp at hp
            | some ebin =>
              rw [heb] at hp
              dsimp only at hp
              injection hp with hp'
              exact ⟨ad, rfl, hot, ebin, heb, hp'.symm⟩
          · simp [hot] at hp
      · intro hread
        simp [converted_stub, hfid, hpath, hread]
      · intro bs hread
        simp [converted_stub, hfid, hpath, hread]
    · intro hpath
      simp [converted_stub, hfid, hpath]

/-- Claim C6 witness: a single OTP module with a known ebin path and a
missing artifact yields BEAMNotFound carrying ebin/m.beam. -/
theorem C6_witness :
    beamMissingDb.file_for_module 0 ['m'] = some 0 ∧
    from_beam_path beamMissingDb 0 ['m'] = some (pathJoin "ebin".toList "m.beam".toList) ∧
    converted_stub beamMissingDb 0 ['m'] =
      .err (.BEAMNotFound (pathJoin "ebin".toList "m.beam".toList)) := by
  refine ⟨by decide, by decide, ?_⟩
  exact (((C6_converted_stub_sources beamMissingDb 0 ['m']).2 0 (by decide)).1
    (pathJoin "ebin".toList "m.beam".toList) (by decide)).2.1 (by decide)

/-- Claim C1: type_decl consults the custom-override map first: an Id
present in custom_types for the module is answered by the override, and
only otherwise does the result come from the module's own transitive
stub. -/
theorem C1_type_decl_override_precedence (db : EqDb) (p : ProjectId) (m : ModuleName) (i : Id)
    (cts : NMap TypeDecl) (hok : custom_types db p = .ok cts) :
    (∀ t, lookup2 cts m i = some t → type_decl db p m i = .ok (some t)) ∧
    (lookup2 cts m i = none →
      type_decl db p m i =
        QRes.bind (transitive_stub db p m) fun stub => .ok (lookupA stub.types i)) := by
  constructor
  · intro t ht
    simp [type_decl, hok, QRes.bind, ht]
  · intro hn
    simp [type_decl, hok, QRes.bind, hn]

/-- Claim C1 witness: module a declares t/0 as TypeDecl 1, the virtual
module eqwalizer_types declares a:t/0 as TypeDecl 2, and type_decl
returns the override TypeDecl 2 rather than module a's own TypeDecl 1. -/
theorem C1_witness_end_to_end :
    custom_types overrideDb 0 = .ok [(['a'], [(⟨['t'], 0⟩, ⟨2⟩)])] ∧
    lookupA stubA.types ⟨['t'], 0⟩ = some ⟨1⟩ ∧
    type_decl overrideDb 0 ['a'] ⟨['t'], 0⟩ = .ok (some ⟨2⟩) := by
  refine ⟨by decide, by decide, ?_⟩
  exact (C1_type_decl_override_precedence overrideDb 0 ['a'] ⟨['t'], 0⟩
    [(['a'], [(⟨['t'], 0⟩, ⟨2⟩)])] (by decide)).1 ⟨2⟩ (by decide)

/-- Claim C2: the three-way precedence with mutual exclusion: an Id among
custom overloaded specs makes fun_spec return none, an Id among custom
plain specs makes overloaded_fun_spec return none, an Id in exactly one
custom map is answered by that map's entry in the corresponding query,
and an Id in neither falls back to the specs or overloaded_specs of the
module's own transitive stub. -/
theorem C2_fun_spec_mutual_exclusion (db : EqDb) (p : ProjectId) (m : ModuleName) (i : Id)
    (cofs : NMap OverloadedFunSpec) (cfs : NMap FunSpec)
    (hco : custom_overloaded_fun_specs db p = .ok cofs)
    (hcf : custom_fun_specs db p = .ok cfs) :
    ((lookup2 cofs m i).isSome → fun_spec db p m i = .ok none) ∧
    ((lookup2 cfs m i).isSome → overloaded_fun_spec db p m i = .ok none) ∧
    (∀ s, lookup2 cofs m i = none → lookup2 cfs m i = some s →
      fun_spec db p m i = .ok (some s)) ∧
    (∀ s, lookup2 cfs m i = none → lookup2 cofs m i = some s →
      overloaded_fun_spec db p m i = .ok (some s)) ∧
    (lookup2 cofs m i = none → lookup2 cfs m i = none →
      fun_spec db p m i =
        (QRes.bind (transitive_stub db p m) fun stub => .ok (lookupA stub.specs i)) ∧
      overloaded_fun_spec db p m i =
        (QRes.bind (transitive_stub db p m) fun stub =>
          .ok (lookupA stub.overloaded_specs i))) := by
  refine ⟨?_, ?_, ?_, ?_, ?_⟩
  · intro hs
    simp [fun_spec, hco, QRes.bind, hs]
  · intro hs
    simp [overloaded_fun_spec, hcf, QRes.bind, hs]
  · intro s hn hs
    simp [fun_spec, hco, hcf, QRes.bind, hn, hs]
  · intro s hn hs
    simp [overloaded_fun_spec, hco, hcf, QRes.bind, hn, hs]
  · intro hn hn'
    constructor
    · simp [fun_spec, hco, hcf, QRes.bind, hn, hn']
    · simp [overloaded_fun_spec, hco, hcf, QRes.bind, hn, hn']

/-- Claim C2 witness: with plain override a:f/1 and overloaded override
a:g/2, fun_spec(g/2) and overloaded_fun_spec(f/1) return none, each
override is returned by its own query, and h/3 (in neither) falls back
to module a's own stub entry. -/
theorem C2_witness :
    custom_overloaded_fun_specs overrideDb 0 = .ok [(['a'], [(⟨['g'], 2⟩, ⟨4⟩)])] ∧
    custom_fun_specs overrideDb 0 = .ok [(['a'], [(⟨['f'], 1⟩, ⟨3⟩)])] ∧
    fun_spec overrideDb 0 ['a'] ⟨['g'], 2⟩ = .ok none ∧
    overloaded_fun_spec overrideDb 0 ['a'] ⟨['f'], 1⟩ = .ok none ∧
    fun_spec overrideDb 0 ['a'] ⟨['f'], 1⟩ = .ok (some ⟨3⟩) ∧
    overloaded_fun_spec overrideDb 0 ['a'] ⟨['g'], 2⟩ = .ok (some ⟨4⟩) ∧
    fun_spec overrideDb 0 ['a'] ⟨['h'], 3⟩ = .ok (some ⟨6⟩) := by
  have hg := C2_fun_spec_mutual_exclusion overrideDb 0 ['a'] ⟨['g'], 2⟩
    [(['a'], [(⟨['g'], 2⟩, ⟨4⟩)])] [(['a'], [(⟨['f'], 1⟩, ⟨3⟩)])] (by decide) (by decide)
  have hf := C2_fun_spec_mutual_exclusion overrideDb 0 ['a'] ⟨['f'], 1⟩
    [(['a'], [(⟨['g'], 2⟩, ⟨4⟩)])] [(['a'], [(⟨['f'], 1⟩, ⟨3⟩)])] (by decide) (by decide)
  have hh := C2_fun_spec_mutual_exclusion overrideDb 0 ['a'] ⟨['h'], 3⟩
    [(['a'], [(⟨['g'], 2⟩, ⟨4⟩)])] [(['a'], [(⟨['f'], 1⟩, ⟨3⟩)])] (by decide) (by decide)
  refine ⟨by decide, by decide, hg.1 (by decide), hf.2.1 (by decide),
    hf.2.2.1 ⟨3⟩ (by decide) (by decide), hg.2.2.2.1 ⟨4⟩ (by decide) (by decide), ?_⟩
  rw [(hh.2.2.2.2 (by decide) (by decide)).1]
  decide

/-- Claim C3: a ModuleNotFound failure of the transitive stub of the
reserved virtual module is recovered as an empty override map by
custom_types, custom_fun_specs and custom_overloaded_fun_specs; any
other error of that computation propagates unchanged; and the recovery
is local to the three override queries — every per-module query
propagates the target module's transitive-stub error unchanged. -/
theorem C3_module_not_found_recovery (db : EqDb) (p : ProjectId) :
    (∀ s, transitive_stub db p eqwalizer_types = .err (.ModuleNotFound s) →
      custom_types db p = .ok []) ∧
    (∀ e, transitive_stub db p eqwalizer_types = .err e → (∀ s, e ≠ .ModuleNotFound s) →
      custom_types db p = .err e) ∧
    (∀ s, transitive_stub db p eqwalizer_specs = .err (.ModuleNotFound s) →
      custom_fun_specs db p = .ok [] ∧ custom_overloaded_fun_specs db p = .ok []) ∧
    (∀ e, transitive_stub db p eqwalizer_specs = .err e → (∀ s, e ≠ .ModuleNotFound s) →
      custom_fun_specs db p = .err e ∧ custom_overloaded_fun_specs db p = .err e) ∧
    (∀ m id e, transitive_stub db p m = .err e → rec_decl db p m id = .err e) ∧
    (∀ m e, transitive_stub db p m = .err e →
      callbacks db p m = .err e ∧ transitive_stub_bytes db p m = .err e) ∧
    (∀ m i e cts, custom_types db p = .ok cts → lookup2 cts m i = none →
      transitive_stub db p m = .err e → type_decl db p m i = .err e) ∧
    (∀ m i e cofs cfs, custom_overloaded_fun_specs db p = .ok cofs →
      custom_fun_specs db p = .ok cfs → lookup2 cofs m i = none → lookup2 cfs m i = none →
      transitive_stub db p m = .err e →
      fun_spec db p m i = .err e ∧ overloaded_fun_spec db p m i = .err e) := by
  refine ⟨?_, ?_, ?_, ?_, ?_, ?_, ?_, ?_⟩
  · intro s h
    simp [custom_types, h]
  · intro e h hne
    cases e with
    | ModuleNotFound s => exact absurd rfl (hne s)
    | BEAMNotFound s => simp [custom_types, h]
    | TypeConversionError n => simp [custom_types, h]
  · intro s h
    exact ⟨by simp [custom_fun_specs, h], by simp [custom_overloaded_fun_specs, h]⟩
  · intro e h hne
    cases e with
    | ModuleNotFound s => exact absurd rfl (hne s)
    | BEAMNotFound s =>
      exact ⟨by simp [custom_fun_specs, h], by simp [custom_overloaded_fun_specs, h]⟩
    | TypeConversionError n =>
      exact ⟨by simp [custom_fun_specs, h], by simp [custom_overloaded_fun_specs, h]⟩
  · intro m id e h
    simp [rec_decl, h, QRes.bind]
  · intro m e h
    exact ⟨by simp [callbacks, h, QRes.bind], by simp [transitive_stub_bytes, h, QRes.bind]⟩
  · intro m i e cts hcts hn h
    simp [type_decl, hcts, QRes.bind, hn, h]
  · intro m i e cofs cfs hco hcf hn hn' h
    exact ⟨by simp [fun_spec, hco, hcf, QRes.bind, hn, hn', h],
      by simp [overloaded_fun_spec, hco, hcf, QRes.bind, hn, hn', h]⟩

/-- Claim C3 witness: with no modules at all, the virtual modules are
ModuleNotFound and all three override queries return empty maps; with
failing parser-service bytes, the TypeConversionError propagates
unchanged through custom_types. -/
theorem C3_witness :
    custom_types (simpleDb []) 0 = .ok [] ∧
    custom_fun_specs (simpleDb []) 0 = .ok [] ∧
    custom_overloaded_fun_specs (simpleDb []) 0 = .ok [] ∧
    custom_types failedBytesDb 0 = .err (.TypeConversionError 7) := by
  have h1 := (C3_module_not_found_recovery (simpleDb []) 0).1 eqwalizer_types (by decide)
  have h2 := (C3_module_not_found_recovery (simpleDb []) 0).2.2.1 eqwalizer_specs (by decide)
  have h3 := (C3_module_not_found_recovery failedBytesDb 0).2.1 (.TypeConversionError 7)
    (by decide) (fun s h => nomatch h)
  exact ⟨h1, h2.1, h2.2, h3⟩

theorem buildCustom_ok_all_some {α : Type} (rekey : Id → Option (ModuleName × Id))
    (l : List (Id × α)) (acc r : NMap α) (h : buildCustom rekey l acc = .ok r) :
    ∀ e ∈ l, (rekey e.1).isSome := by
  intro e he
  by_contra hn
  have hnone : rekey e.1 = none := Option.not_isSome_iff_eq_none.mp hn
  rw [buildCustom_panicked rekey l acc ⟨e, he, hnone⟩] at h
  cases h

/-- Claim C10: the override queries are total only when every Id name in
the reserved virtual modules' stubs contains a colon: a colon-free entry
makes custom_types, custom_fun_specs and custom_overloaded_fun_specs
panic instead of returning a Result, and when every entry has a colon
the panic branches are unreachable. -/
theorem C10_colon_precondition (db : EqDb) (p : ProjectId) (stubT stubS : ModuleStub)
    (hT : transitive_stub db p eqwalizer_types = .ok stubT)
    (hS : transitive_stub db p eqwalizer_specs = .ok stubS) :
    ((∃ e ∈ stubT.types, ':' ∉ e.1.name) → custom_types db p = .panicked) ∧
    ((∀ e ∈ stubT.types, ':' ∈ e.1.name) → ∃ r, custom_types db p = .ok r) ∧
    ((∃ e ∈ stubS.specs, ':' ∉ e.1.name) → custom_fun_specs db p = .panicked) ∧
    ((∀ e ∈ stubS.specs, ':' ∈ e.1.name) → ∃ r, custom_fun_specs db p = .ok r) ∧
    ((∃ e ∈ stubS.overloaded_specs, ':' ∉ e.1.name) →
      custom_overloaded_fun_specs db p = .panicked) ∧
    ((∀ e ∈ stubS.overloaded_specs, ':' ∈ e.1.name) →
      ∃ r, custom_overloaded_fun_specs db p = .ok r) := by
  have hct : custom_types db p = buildCustom rekeySplitOnce stubT.types [] := by
    simp [custom_types, hT]
  have hcf : custom_fun_specs db p = buildCustom rekeySplitOnce stubS.specs [] := by
    simp [custom_fun_specs, hS]
  have hcofs : custom_overloaded_fun_specs db p =
      buildCustom rekeyParts stubS.overloaded_specs [] := by
    simp [custom_overloaded_fun_specs, hS]
  refine ⟨?_, ?_, ?_, ?_, ?_, ?_⟩
  · intro ⟨e, he, hc⟩
    rw [hct]
    exact buildCustom_panicked _ _ _ ⟨e, he, (rekeySplitOnce_eq_none_iff e.1).mpr hc⟩
  · intro h
    rw [hct]
    exact buildCustom_isOk _ _ _ fun e he =>
      Option.isSome_iff_ne_none.mpr fun hn => ((rekeySplitOnce_eq_none_iff e.1).mp hn) (h e he)
  · intro ⟨e, he, hc⟩
    rw [hcf]
    exact buildCustom_panicked _ _ _ ⟨e, he, (rekeySplitOnce_eq_none_iff e.1).mpr hc⟩
  · intro h
    rw [hcf]
    exact buildCustom_isOk _ _ _ fun e he =>
      Option.isSome_iff_ne_none.mpr fun hn => ((rekeySplitOnce_eq_none_iff e.1).mp hn) (h e he)
  · intro ⟨e, he, hc⟩
    rw [hcofs]
    exact buildCustom_panicked _ _ _ ⟨e, he, (rekeyParts_eq_none_iff e.1).mpr hc⟩
  · intro h
    rw [hcofs]
    exact buildCustom_isOk _ _ _ fun e he =>
      Option.isSome_iff_ne_none.mpr fun hn => ((rekeyParts_eq_none_iff e.1).mp hn) (h e he)

/-- Claim C10 witness: with colon-free entries in both virtual modules,
all three override queries panic. -/
theorem C10_witness :
    custom_types noColonDb 0 = .panicked ∧
    custom_fun_specs noColonDb 0 = .panicked ∧
    custom_overloaded_fun_specs noColonDb 0 = .panicked := by
  have h := C10_colon_precondition noColonDb 0 noColonTypesStub noColonSpecsStub
    (by decide) (by decide)
  exact ⟨h.1 (by decide), h.2.2.1 (by decide), h.2.2.2.2.1 (by decide)⟩

/-- Claim C4 counterexample: an overloaded-spec entry named x:y:z with
arity 3 is re-keyed by custom_overloaded_fun_specs to module x and Id
name y — not to the name y:z (everything after the first colon) that the
claim predicts for all three queries. -/
theorem C4_counterexample :
    custom_overloaded_fun_specs multiColonDb 0 = .ok [(['x'], [(⟨['y'], 3⟩, ⟨13⟩)])] ∧
    lookup2 ([(['x'], [(⟨['y'], 3⟩, ⟨13⟩)])] : NMap OverloadedFunSpec) ['x'] ⟨"y:z".toList, 3⟩ =
      none ∧
    lookup2 ([(['x'], [(⟨['y'], 3⟩, ⟨13⟩)])] : NMap OverloadedFunSpec) ['x'] ⟨['y'], 3⟩ =
      some ⟨13⟩ := by
  decide

/-- Claim C4 (amended): custom_types and custom_fun_specs split each
entry's Id name at the first colon, the prefix becoming the real module
name and everything after the first colon the Id name, arity preserved;
custom_overloaded_fun_specs instead splits the name at every colon and
takes only the first segment as the module and the second segment as the
Id name, dropping everything from a second colon on. -/
theorem C4_split_behavior (db : EqDb) (p : ProjectId) (stubT stubS : ModuleStub)
    (hT : transitive_stub db p eqwalizer_types = .ok stubT)
    (hS : transitive_stub db p eqwalizer_specs = .ok stubS) :
    (∀ r, custom_types db p = .ok r →
      (stubT.types.filterMap fun e => rekeySplitOnce e.1).Nodup →
      ∀ i v mn rest, (i, v) ∈ stubT.types → splitOnceL ':' i.name = some (mn, rest) →
        lookup2 r mn ⟨rest, i.arity⟩ = some v) ∧
    (∀ r, custom_fun_specs db p = .ok r →
      (stubS.specs.filterMap fun e => rekeySplitOnce e.1).Nodup →
      ∀ i v mn rest, (i, v) ∈ stubS.specs → splitOnceL ':' i.name = some (mn, rest) →
        lookup2 r mn ⟨rest, i.arity⟩ = some v) ∧
    (∀ r, custom_overloaded_fun_specs db p = .ok r →
      (stubS.overloaded_specs.filterMap fun e => rekeyParts e.1).Nodup →
      ∀ i v mn seg rest, (i, v) ∈ stubS.overloaded_specs →
        splitAllL ':' i.name = mn :: seg :: rest →
        lookup2 r mn ⟨seg, i.arity⟩ = some v) := by
  have hct : custom_types db p = buildCustom rekeySplitOnce stubT.types [] := by
    simp [custom_types, hT]
  have hcf : custom_fun_specs db p = buildCustom rekeySplitOnce stubS.specs [] := by
    simp [custom_fun_specs, hS]
  have hcofs : custom_overloaded_fun_specs db p =
      buildCustom rekeyParts stubS.overloaded_specs [] := by
    simp [custom_overloaded_fun_specs, hS]
  refine ⟨?_, ?_, ?_⟩
  · intro r hok hnd i v mn rest hmem hsplit
    rw [hct] at hok
    have hrk : rekeySplitOnce i = some (mn, ⟨rest, i.arity⟩) := by
      unfold rekeySplitOnce
      rw [hsplit]
      rfl
    exact buildCustom_lookup_mem rekeySplitOnce stubT.types [] r i v mn ⟨rest, i.arity⟩
      (buildCustom_ok_all_some _ _ _ _ hok) hnd hmem hrk hok
  · intro r hok hnd i v mn rest hmem hsplit
    rw [hcf] at hok
    have hrk : rekeySplitOnce i = some (mn, ⟨rest, i.arity⟩) := by
      unfold rekeySplitOnce
      rw [hsplit]
      rfl
    exact buildCustom_lookup_mem rekeySplitOnce stubS.specs [] r i v mn ⟨rest, i.arity⟩
      (buildCustom_ok_all_some _ _ _ _ hok) hnd hmem hrk hok
  · intro r hok hnd i v mn seg rest hmem hsplit
    rw [hcofs] at hok
    have hrk : rekeyParts i = some (mn, ⟨seg, i.arity⟩) := by
      unfold rekeyParts
      rw [hsplit]
    exact buildCustom_lookup_mem rekeyParts stubS.overloaded_specs [] r i v mn ⟨seg, i.arity⟩
      (buildCustom_ok_all_some _ _ _ _ hok) hnd hmem hrk hok

/-- Claim C4 witness: for the type entry a:b:c/1 the split_once re-keying
gives module a and name b:c, while for the overloaded entry x:y:z/3 the
split-and-index re-keying gives module x and name y. -/
theorem C4_witness :
    custom_types multiColonDb 0 = .ok [(['a'], [(⟨"b:c".toList, 1⟩, ⟨11⟩)])] ∧
    lookup2 ([(['a'], [(⟨"b:c".toList, 1⟩, ⟨11⟩)])] : NMap TypeDecl) ['a'] ⟨"b:c".toList, 1⟩ =
      some ⟨11⟩ ∧
    lookup2 ([(['x'], [(⟨['y'], 3⟩, ⟨13⟩)])] : NMap OverloadedFunSpec) ['x'] ⟨['y'], 3⟩ =
      some ⟨13⟩ := by
  have h := C4_split_behavior multiColonDb 0 multiColonTypesStub multiColonSpecsStub
    (by decide) (by decide)
  refine ⟨by decide, ?_, ?_⟩
  · exact h.1 [(['a'], [(⟨"b:c".toList, 1⟩, ⟨11⟩)])] (by decide) (by decide)
      ⟨"a:b:c".toList, 1⟩ ⟨11⟩ ['a'] "b:c".toList (by decide) (by decide)
  · exact h.2.2 [(['x'], [(⟨['y'], 3⟩, ⟨13⟩)])] (by decide) (by decide)
      ⟨"x:y:z".toList, 3⟩ ⟨13⟩ ['x'] ['y'] [['z']] (by decide) (by decide)

/-- Claim C7: Change::apply commits the staged mutations in the fixed
order — source roots (with the reverse file-to-root index) first, then
the application structure with the supplied resolver, then the staged
text changes; a staged change with absent text blanks the file to empty
text; and the returned list is the staged FileIds in staging order. -/
theorem C7_change_apply_order (c : Change) (st : DbState) (resolver : Str → Option FileId) :
    (c.apply st resolver =
      applyTexts c.files_changed
        (match c.app_structure with
         | some set_app_structure =>
             set_app_structure resolver
               (match c.roots with
                | some roots => applyRoots roots st
                | none => st)
         | none =>
             match c.roots with
             | some roots => applyRoots roots st
             | none => st)) ∧
    ((c.apply st resolver).2 = c.files_changed.map Prod.fst) ∧
    (∀ f, lookupA c.files_changed.reverse f = some none →
      ((c.apply st resolver).1).file_text f = []) ∧
    (∀ f t, lookupA c.files_changed.reverse f = some (some t) →
      ((c.apply st resolver).1).file_text f = t) ∧
    (∀ roots, c.roots = some roots →
      (∀ k (h : k < roots.length), (applyRoots roots st).source_root k = roots.get ⟨k, h⟩) ∧
      (∀ f pre root post, roots = pre ++ root :: post → f ∈ root.files →
        (∀ r ∈ post, f ∉ r.files) →
        (applyRoots roots st).file_source_root f = pre.length)) := by
  have happly : c.apply st resolver =
      applyTexts c.files_changed
        (match c.app_structure with
         | some set_app_structure =>
             set_app_structure resolver
               (match c.roots with
                | some roots => applyRoots roots st
                | none => st)
         | none =>
             match c.roots with
             | some roots => applyRoots roots st
             | none => st) := rfl
  refine ⟨happly, ?_, ?_, ?_, ?_⟩
  · rw [happly, applyTexts_snd]
  · intro f hf
    rw [happly, applyTexts_file_text, hf]
    rfl
  · intro f t hf
    rw [happly, applyTexts_file_text, hf]
    rfl
  · intro roots _
    constructor
    · intro k h
      have hg := applyRootsFrom_source_root_get roots 0 st k h
      rw [Nat.zero_add] at hg
      exact hg
    · intro f pre root post hsplit hmem hpost
      rw [hsplit]
      have hs := applyRootsFrom_fsr_split pre root post 0 st f hmem hpost
      rw [Nat.zero_add] at hs
      exact hs

/-- Claim C7 witness: two staged roots, file 1 blanked and file 2
rewritten: the returned list is the staging order, file 1 is blank, file
2 holds the new text, the second root is installed under index 1 and
file 3 (present only in the second root) points at it. -/
theorem C7_witness :
    (change0.apply st0 (fun _ => none)).2 = [1, 2] ∧
    ((change0.apply st0 (fun _ => none)).1).file_text 1 = [] ∧
    ((change0.apply st0 (fun _ => none)).1).file_text 2 = "new".toList ∧
    (applyRoots [⟨[1, 2]⟩, ⟨[2, 3]⟩] st0).source_root 1 = ⟨[2, 3]⟩ ∧
    (applyRoots [⟨[1, 2]⟩, ⟨[2, 3]⟩] st0).file_source_root 3 = 1 := by
  have h := C7_change_apply_order change0 st0 (fun _ => none)
  have hroots := h.2.2.2.2 [⟨[1, 2]⟩, ⟨[2, 3]⟩] (by decide)
  refine ⟨h.2.1.trans (by decide), h.2.2.1 1 (by decide), h.2.2.2.1 2 "new".toList (by decide),
    ?_, ?_⟩
  · exact hroots.1 1 (by decide)
  · exact hroots.2 3 [⟨[1, 2]⟩] ⟨[2, 3]⟩ [] (by decide) (by decide) (by decide)

/-- Claim C8: module_diagnostics is total — it returns a payload paired
with the timestamp read at the start of the computation, the success
payload is passed through, and any pipeline error is rendered as a
textual diagnostic whose message embeds the module name. -/
theorem C8_module_diagnostics_total (db : DiagDb) (p : ProjectId) (m : Str) :
    (module_diagnostics db p m).2 = db.now ∧
    (∀ d, db.get_module_diagnostics p m = .ok d → (module_diagnostics db p m).1 = d) ∧
    (∀ e, db.get_module_diagnostics p m = .error e →
      (module_diagnostics db p m).1 =
        .Error ("eqWAlizing module ".toList ++ m ++ ":\n".toList ++ db.err_display e) ∧
      ∃ pre post, (module_diagnostics db p m).1 = .Error (pre ++ m ++ post)) := by
  refine ⟨?_, ?_, ?_⟩
  · unfold module_diagnostics
    cases db.get_module_diagnostics p m <;> rfl
  · intro d hd
    simp [module_diagnostics, hd]
  · intro e he
    refine ⟨by simp [module_diagnostics, he], ?_⟩
    exact ⟨"eqWAlizing module ".toList, ":\n".toList ++ db.err_display e,
      by simp [module_diagnostics, he]⟩

/-- Claim C8 witness: a failing pipeline driver produces the timestamp
taken at the start and a textual diagnostic embedding the module name. -/
theorem C8_witness :
    (module_diagnostics diagDb0 0 "mod".toList).2 = 41 ∧
    (module_diagnostics diagDb0 0 "mod".toList).1 =
      .Error "eqWAlizing module mod:\nboom".toList := by
  have h := C8_module_diagnostics_total diagDb0 0 "mod".toList
  refine ⟨h.1, ?_⟩
  rw [(h.2.2 (.TypeConversionError 3) rfl).1]
  decide

/-- Claim C9: a file without application data makes module_ast return a
location-less parse error with message Unknown application and code
L0003, independently of the parser delegate; a file with application
data is delegated to the parser with the application's macro
definitions, parse transforms and metadata. -/
theorem C9_module_ast_unknown_app (db : AstDb) (file_id : FileId) (path : Str)
    (hp : db.root_path_for_file (db.file_source_root file_id) file_id = some path) :
    (db.file_app_data file_id = none →
      module_ast db file_id =
        some (.error
          { path := path
            location := none
            msg := "Unknown application".toList
            code := "L0003".toList }) ∧
      ∀ loader, module_ast { db with load_ast := loader } file_id = module_ast db file_id) ∧
    (∀ ad, db.file_app_data file_id = some ad →
      module_ast db file_id =
        some (db.load_ast ad.project_id file_id path ad.macro_defs ad.parse_transforms
          (db.elp_metadata file_id))) := by
  constructor
  · intro h
    constructor
    · simp [module_ast, hp, h]
    · intro loader
      simp [module_ast, hp, h]
  · intro ad h
    simp [module_ast, hp, h]

/-- Claim C9 witness: the file of astDb0 has a path but no application
data, and module_ast answers the L0003 Unknown application error. -/
theorem C9_witness :
    module_ast astDb0 7 =
      some (.error
        { path := "/src/a.erl".toList
          location := none
          msg := "Unknown application".toList
          code := "L0003".toList }) :=
  ((C9_module_ast_unknown_app astDb0 7 "/src/a.erl".toList (by decide)).1 (by decide)).1

end Elp
